import Mathlib

/-!
Verification of the sampling-and-classification core of the
Flexibility_Under_Low_Observability repository.

The embedding models:
  * `data_sampler.py` : `profile_creation`, `create_samples`,
    `create_load_samples`, `sample_from_rng`, `sample_new_point`,
    `sample_new_non_mp_point`, `sample_new_load_point`;
  * `utils.py` : `update_pqs`, `update_pqs_wl`, `check_voltage_limits`,
    `check_line_current_limits`, `check_trafo_current_limits`;
  * `monte_carlo.py` : `run_all_samples` (the Monte Carlo sweep), with the
    external power-flow solver abstracted as a function from network states
    to an optional solve result (`none` models non-convergence or any
    solver-raised condition caught by the bare `except`).

Modelling conventions:
  * Python floats are modelled as real numbers; `np.sqrt` is `Real.sqrt`.
    `np.sqrt` of a negative float returns NaN; on arguments `>= 0` the model
    agrees with the code, and theorems that need the square-root argument to
    be in range carry that as an explicit hypothesis.  NaN propagation (the
    one place where it is the point of a claim, `sample_new_load_point`) is
    modelled separately and faithfully with the `FVal` type below.
  * A seeded `np.random.RandomState(21)` is modelled as an infinite stream
    of primitive draws `ℕ → ℝ` plus a cursor; each `rng.normal`/`rng.uniform`
    call consumes one primitive draw per produced cell, in row-major order,
    and applies its deterministic affine transform.  This abstracts the
    numeric content of the draws but preserves exactly what the claims are
    about: output shapes, the fixed consumption order of the shared stream,
    and determinism in (seed stream, argument list).
  * Wall-clock durations returned by the Python functions are dropped
    (real time is not modelled); list indexing `xs[i]` is modelled with
    `List.getD` (the Python code raises on an out-of-range index; theorems
    only evaluate it in range).
  * Python `int(x/y)` on non-negative integers is ℕ division.
-/

namespace FlexMC

/-- One static generator row of `net.sgen`: rated apparent power `sn_mva`,
active power `p_mw`, reactive power `q_mvar`. -/
structure SGen where
  sn_mva : ℝ
  p_mw : ℝ
  q_mvar : ℝ

/-- One load row of `net.load`: active power `p_mw`, reactive power `q_mvar`,
rated apparent power `sn_mva`. -/
structure LoadU where
  p_mw : ℝ
  q_mvar : ℝ
  sn_mva : ℝ

/-- The slice of a pandapower network the sampler and the sweep read/write:
the `sgen` table and the `load` table. -/
structure Net where
  sgen : List SGen
  load : List LoadU

/-- A seeded numpy `RandomState`: an infinite stream `s` of primitive draws
(fully determined by the seed) and the cursor `pos` of the next unread draw. -/
structure RNG where
  s : ℕ → ℝ
  pos : ℕ

/-- Read an `n × d` block of primitive draws at the cursor, row-major. -/
def RNG.cells (r : RNG) (n d : ℕ) : List (List ℝ) :=
  (List.range n).map fun i => (List.range d).map fun j => r.s (r.pos + (i * d + j))

/-- Advance the cursor past `k` consumed draws. -/
def RNG.advance (r : RNG) (k : ℕ) : RNG :=
  ⟨r.s, r.pos + k⟩

/-- Model of `rng.normal(mu, sigma, [n, d])`: consumes `n*d` primitive draws
and applies the distribution transform cell-wise. -/
def rng_normal (r : RNG) (mu sigma : ℝ) (n d : ℕ) : List (List ℝ) × RNG :=
  ((r.cells n d).map (List.map fun z => mu + sigma * z), r.advance (n * d))

/-- Model of `rng.uniform(a, b, [n, d])`: consumes `n*d` primitive draws
and applies the distribution transform cell-wise. -/
def rng_uniform (r : RNG) (a b : ℝ) (n d : ℕ) : List (List ℝ) × RNG :=
  ((r.cells n d).map (List.map fun z => a + (b - a) * z), r.advance (n * d))

/-- Concatenation along axis 1 of two row-aligned matrices
(`np.concatenate((A, B), axis=1)`). -/
def concat_axis1 {α : Type} (a b : List (List α)) : List (List α) :=
  List.zipWith (· ++ ·) a b

/-- Model of `data_sampler.sample_from_rng`.  The `assert False` for an
unknown distribution tag is an `Except.error`; `Normal_Limits_Oriented`
with `dof` outside `{1, 2}` leaves `random_p` unassigned in Python
(an `UnboundLocalError` at the `return`), also modelled as an error. -/
def sample_from_rng (distribution : String) (no_samples_dg dof : ℕ) (rng : RNG) :
    Except String (List (List ℝ) × RNG) :=
  if distribution = "Normal" then
    .ok (rng_normal rng 1 0.02 no_samples_dg dof)
  else if distribution = "Uniform" then
    .ok (rng_uniform rng 0 1 no_samples_dg dof)
  else if distribution = "Normal_Limits_Oriented" then
    if dof = 1 then
      .ok (rng_normal rng 1 1 no_samples_dg dof)
    else if dof = 2 then
      let q := no_samples_dg / 4
      let s1 := rng_normal rng 0 1 q 2
      let s2a := rng_normal s1.2 0 1 q 1
      let s2b := rng_normal s2a.2 1 1 q 1
      let s3a := rng_normal s2b.2 1 1 q 1
      let s3b := rng_normal s3a.2 0 1 q 1
      let s4a := rng_normal s3b.2 0.5 1 (no_samples_dg - q) 1
      let s4b := rng_normal s4a.2 0.5 1 (no_samples_dg - q) 1
      .ok (s1.1 ++ concat_axis1 s2a.1 s2b.1 ++ concat_axis1 s3a.1 s3b.1 ++
            concat_axis1 s4a.1 s4b.1, s4b.2)
    else
      .error "UnboundLocalError: local variable random_p referenced before assignment"
  else if distribution = "No_change" then
    .ok ((List.range no_samples_dg).map fun _ => (List.range dof).map fun _ => (1 : ℝ), rng)
  else
    .error "Please specify a viable sampling distribution"

/-- Model of `data_sampler.sample_new_point` (generator projection with
`keep_mp = true`): `p_new = sn_mva * raw`, `q_new = (-1)^j * sqrt(sn_mva^2 - p_new^2)`. -/
noncomputable def sample_new_point (sgen : List SGen) (random_p : List (List ℝ))
    (no_samples : ℕ) : List (List (ℝ × ℝ)) :=
  (List.range no_samples).map fun j =>
    (List.range sgen.length).map fun i =>
      let p_perc := (random_p.getD (sgen.length * j + i) []).getD 0 0
      let sn := (sgen.getD i ⟨0, 0, 0⟩).sn_mva
      let p_new := sn * p_perc
      let q_new := (-1 : ℝ) ^ j * Real.sqrt (sn ^ 2 - p_new ^ 2)
      (p_new, q_new)

/-- Model of `data_sampler.sample_new_non_mp_point` (generator projection with
`keep_mp = false`): P is clamped to `[0, sn_mva]`, Q is clamped to the
remaining apparent-power budget, and its sign alternates with `j`. -/
noncomputable def sample_new_non_mp_point (sgen : List SGen) (random_p : List (List ℝ))
    (no_samples : ℕ) : List (List (ℝ × ℝ)) :=
  (List.range no_samples).map fun j =>
    (List.range sgen.length).map fun i =>
      let row := random_p.getD (sgen.length * j + i) []
      let p_perc := row.getD 0 0
      let sn := (sgen.getD i ⟨0, 0, 0⟩).sn_mva
      let p_new := if p_perc ≥ 1 then sn else if p_perc ≤ 0 then 0 else sn * p_perc
      let q_max := Real.sqrt (sn ^ 2 - p_new ^ 2)
      let q_new :=
        if q_max ≥ |sn * row.getD 1 0| then (-1 : ℝ) ^ j * (sn * row.getD 1 0)
        else (-1 : ℝ) ^ j * q_max
      (p_new, q_new)

/-- Model of `data_sampler.sample_new_load_point`.  P is clamped to
`[0, p_mw]` of the load itself; the reactive budget uses the load rating.
In the `flex_loads` branch the source checks `np.isnan(q_max)` but only
prints and falls through; over ℝ the print is a no-op, and the NaN
behaviour itself is modelled exactly in the `FVal` section below. -/
noncomputable def sample_new_load_point (loads : List LoadU) (random_p : List (List ℝ))
    (no_samples : ℕ) (flex_loads : List ℕ) : List (List (ℝ × ℝ)) :=
  let load_change : ℝ := 1
  if flex_loads = [] then
    (List.range no_samples).map fun j =>
      (List.range loads.length).map fun i =>
        let row := random_p.getD (loads.length * j + i) []
        let ld := loads.getD i ⟨0, 0, 0⟩
        let p_perc := row.getD 0 0
        let p_new0 := if p_perc ≥ 1 then ld.p_mw else if p_perc ≤ 0 then 0 else ld.p_mw * p_perc
        let p_new := load_change * p_new0
        let q_max := Real.sqrt (load_change * load_change * ld.sn_mva ^ 2 - p_new ^ 2)
        let q_new0 :=
          if q_max ≥ |load_change * ld.q_mvar * row.getD 1 0| then ld.q_mvar * row.getD 1 0
          else q_max
        (p_new, load_change * q_new0)
  else
    (List.range no_samples).map fun j =>
      (List.range flex_loads.length).map fun idx =>
        let i := flex_loads.getD idx 0
        let row := random_p.getD (flex_loads.length * j + idx) []
        let ld := loads.getD i ⟨0, 0, 0⟩
        let p_perc := row.getD 0 0
        let p_new0 := if p_perc ≥ 1 then ld.p_mw else if p_perc ≤ 0 then 0 else ld.p_mw * p_perc
        let p_new := load_change * p_new0
        let q_max := Real.sqrt (load_change * load_change * ld.sn_mva ^ 2 - p_new ^ 2)
        let q_new0 :=
          if q_max ≥ |load_change * ld.q_mvar * row.getD 1 0| then ld.q_mvar * row.getD 1 0
          else q_max
        (p_new, load_change * q_new0)

/-- Model of `data_sampler.create_samples` (durations dropped). -/
noncomputable def create_samples (no_samples : ℕ) (net : Net) (distribution : String)
    (keep_mp : Bool) (rng : RNG) : Except String (List (List (ℝ × ℝ)) × RNG) :=
  if keep_mp then
    match sample_from_rng distribution (no_samples * net.sgen.length) 1 rng with
    | .error e => .error e
    | .ok (random_p, rng') => .ok (sample_new_point net.sgen random_p no_samples, rng')
  else
    match sample_from_rng distribution (no_samples * net.sgen.length) 2 rng with
    | .error e => .error e
    | .ok (random_p, rng') => .ok (sample_new_non_mp_point net.sgen random_p no_samples, rng')

/-- Number of flexible loads used by `create_load_samples`: every load when
`flex_loads` is empty, else the explicit list length. -/
def flex_load_count (net : Net) (flex_loads : List ℕ) : ℕ :=
  if flex_loads = [] then net.load.length else flex_loads.length

/-- Model of `data_sampler.create_load_samples` (durations dropped). -/
noncomputable def create_load_samples (no_samples : ℕ) (net : Net) (distribution : String)
    (flex_loads : List ℕ) (rng : RNG) : Except String (List (List (ℝ × ℝ)) × RNG) :=
  match sample_from_rng distribution (no_samples * flex_load_count net flex_loads) 2 rng with
  | .error e => .error e
  | .ok (random_p, rng') => .ok (sample_new_load_point net.load random_p no_samples flex_loads, rng')

/-- Model of `data_sampler.profile_creation`.  The stream `s21` is the
primitive draw stream of `np.random.RandomState(21)` built at entry; the
same seed always yields the same stream.  Durations are dropped. -/
noncomputable def profile_creation (s21 : ℕ → ℝ) (no_samples : ℕ) (net : Net)
    (distribution : String) (keep_mp : Bool) (services : String)
    (flexible_loads : List ℕ) : Except String (List (List (ℝ × ℝ))) :=
  if services = "DG only" then
    match create_samples no_samples net distribution keep_mp ⟨s21, 0⟩ with
    | .error e => .error e
    | .ok (profiles, _) => .ok profiles
  else if services = "All" then
    match create_samples (no_samples / 2) net distribution keep_mp ⟨s21, 0⟩ with
    | .error e => .error e
    | .ok (pq_profiles, rng1) =>
      match create_load_samples (no_samples / 2) net distribution flexible_loads rng1 with
      | .error e => .error e
      | .ok (pq_load_profiles, rng2) =>
        let profiles := concat_axis1 pq_profiles pq_load_profiles
        match create_samples (1 * no_samples / 8) net "No_change" keep_mp rng2 with
        | .error e => .error e
        | .ok (pq_profiles_new, rng3) =>
          let profiles_new :=
            concat_axis1 pq_profiles_new (pq_load_profiles.take (1 * no_samples / 8))
          match create_load_samples (3 * no_samples / 8) net "No_change" flexible_loads rng3 with
          | .error e => .error e
          | .ok (pq_load_profiles2, _) =>
            let profiles_new2 :=
              concat_axis1 (pq_profiles.take (3 * no_samples / 8)) pq_load_profiles2
            .ok (profiles ++ profiles_new ++ profiles_new2)
  else if services = "Load only" then
    match create_samples no_samples net "No_change" keep_mp ⟨s21, 0⟩ with
    | .error e => .error e
    | .ok (pq_profiles, rng1) =>
      match create_load_samples no_samples net distribution flexible_loads rng1 with
      | .error e => .error e
      | .ok (pq_load_profiles, _) => .ok (concat_axis1 pq_profiles pq_load_profiles)
  else
    .error "Error: Choose FSPs from \x7bAll, Load only, DG only\x7d"

/-- Calling `profile_creation` without an explicit `services` argument uses
the Python default value `services='DG Only'`. -/
noncomputable def profile_creation_default (s21 : ℕ → ℝ) (no_samples : ℕ) (net : Net)
    (distribution : String) (keep_mp : Bool) : Except String (List (List (ℝ × ℝ))) :=
  profile_creation s21 no_samples net distribution keep_mp "DG Only" []

/-- Model of `utils.check_voltage_limits`:
`all(upper_limit >= x >= lower_limit for x in voltages)`. -/
def check_voltage_limits (voltages : List ℝ) (upper_limit lower_limit : ℝ) : Prop :=
  ∀ x ∈ voltages, upper_limit ≥ x ∧ x ≥ lower_limit

/-- Result fields a converged power-flow solve populates on the network:
`res_bus['vm_pu']`, `res_line['loading_percent']`,
`res_trafo['loading_percent']`, `res_ext_grid['p_mw']`, `res_ext_grid['q_mvar']`. -/
structure SolveRes where
  vm_pu : List ℝ
  line_loading : List ℝ
  trafo_loading : List ℝ
  p_slack : ℝ
  q_slack : ℝ

/-- Model of `utils.check_line_current_limits`:
`all(upper_limit >= abs(x) for x in net.res_line['loading_percent'])`. -/
def check_line_current_limits (r : SolveRes) (upper_limit : ℝ) : Prop :=
  ∀ x ∈ r.line_loading, upper_limit ≥ |x|

/-- Model of `utils.check_trafo_current_limits`:
`all(upper_limit >= abs(x) for x in net.res_trafo['loading_percent'])`. -/
def check_trafo_current_limits (r : SolveRes) (upper_limit : ℝ) : Prop :=
  ∀ x ∈ r.trafo_loading, upper_limit ≥ |x|

/-- Body of the `update_pqs` loop for one sgen row `g` at index `i`.
Note the source of the non-flexible branch (utils.py lines 69-70): it first
assigns `p_mw[i] = p_mw[i]*scale` and then `q_mvar[i] = p_mw[i]*scale`,
reading the freshly assigned `p_mw[i]`. -/
def update_sgen_row (sgen_len : ℕ) (flex_wt flex_pv : List ℕ)
    (profile : List (ℝ × ℝ)) (scale_w scale_pv : ℝ) (i : ℕ) (g : SGen) : SGen :=
  if i < profile.length then
    let scale := if i = sgen_len - 1 then scale_w else scale_pv
    if i ∈ flex_pv ∨ i ∈ flex_wt then
      { g with p_mw := (profile.getD i (0, 0)).1 * scale,
               q_mvar := (profile.getD i (0, 0)).2 * scale }
    else
      let p' := g.p_mw * scale
      { g with p_mw := p', q_mvar := p' * scale }
  else g

/-- Scaling applied to every sgen row when `update_pqs` is called with an
empty/absent profile (the `else` of `if profile:`). -/
def scale_sgen_row (sgen_len : ℕ) (scale_w scale_pv : ℝ) (i : ℕ) (g : SGen) : SGen :=
  let scale := if i = sgen_len - 1 then scale_w else scale_pv
  { g with p_mw := g.p_mw * scale, q_mvar := g.q_mvar * scale }

/-- Model of `utils.update_pqs`.  The Python loop runs over
`range(len(profile))`; rows of `net.sgen` beyond the profile are untouched
(indexing requires `len(profile) <= len(net.sgen)`, or Python raises). -/
def update_pqs (net : Net) (flex_wt flex_pv : List ℕ) (profile : List (ℝ × ℝ))
    (scale_w scale_pv : ℝ) : Net :=
  match profile with
  | [] =>
    let rows := List.zipWith (scale_sgen_row net.sgen.length scale_w scale_pv)
      (List.range net.sgen.length) net.sgen
    { net with sgen := rows }
  | _ =>
    let rows := List.zipWith
      (update_sgen_row net.sgen.length flex_wt flex_pv profile scale_w scale_pv)
      (List.range net.sgen.length) net.sgen
    { net with sgen := rows }

/-- Model of `utils.update_pqs_wl`.  Profile entries with index below
`len(net.sgen)` update sgen rows exactly as `update_pqs`; later entries `i`
update `net.load` at the original network index `load_ind[i - len(net.sgen)]`. -/
def update_pqs_wl (net : Net) (flex_wt flex_pv : List ℕ) (profile : List (ℝ × ℝ))
    (scale_w scale_pv : ℝ) (load_ind : List ℕ) : Net :=
  match profile with
  | [] =>
    let rows := List.zipWith (scale_sgen_row net.sgen.length scale_w scale_pv)
      (List.range net.sgen.length) net.sgen
    { net with sgen := rows }
  | _ =>
    let sgen' := List.zipWith
      (update_sgen_row net.sgen.length flex_wt flex_pv profile scale_w scale_pv)
      (List.range net.sgen.length) net.sgen
    let load' := (List.range profile.length).foldl
      (fun ld i =>
        if i < net.sgen.length then ld
        else
          let j := load_ind.getD (i - net.sgen.length) 0
          let old := ld.getD j ⟨0, 0, 0⟩
          ld.set j { old with p_mw := (profile.getD i (0, 0)).1,
                              q_mvar := (profile.getD i (0, 0)).2 })
      net.load
    { sgen := sgen', load := load' }

/-- Per-run limit settings read from the scenario file. -/
structure Settings where
  max_curr : ℝ
  max_volt : ℝ
  min_volt : ℝ
  fsp_pv : List ℕ
  fsp_wt : List ℕ

/-- The feasibility test of one converged solve in `run_all_samples`:
all three limit checks hold. -/
def feasible_res (st : Settings) (r : SolveRes) : Prop :=
  check_voltage_limits r.vm_pu st.max_volt st.min_volt ∧
    check_line_current_limits r st.max_curr ∧ check_trafo_current_limits r st.max_curr

/-- Output buckets of the Monte Carlo sweep, mirroring the seven return
values of `run_all_samples` (duration dropped). -/
structure MCResult where
  x_flexible : List ℝ
  y_flexible : List ℝ
  x_non_flexible : List ℝ
  y_non_flexible : List ℝ
  prof_flexible : List (List (ℝ × ℝ))
  prof_non_flexible : List (List (ℝ × ℝ))

open Classical in
/-- Model of `monte_carlo.run_all_samples`.  The external solver `solve`
maps the updated network to `some` populated results on convergence and to
`none` when `pp.runpp` raises (captured by the bare `except`, which only
prints and moves on).  The network handed to the next iteration is the
mutated one, as in the source. -/
noncomputable def run_all_samples (solve : Net → Option SolveRes) (st : Settings)
    (net : Net) : List (List (ℝ × ℝ)) → MCResult
  | [] => ⟨[], [], [], [], [], []⟩
  | profile :: rest =>
    let net' := update_pqs net st.fsp_wt st.fsp_pv profile 1 1
    match solve net' with
    | none => run_all_samples solve st net' rest
    | some r =>
      let res := run_all_samples solve st net' rest
      if feasible_res st r then
        ⟨r.p_slack :: res.x_flexible, r.q_slack :: res.y_flexible,
         res.x_non_flexible, res.y_non_flexible,
         profile :: res.prof_flexible, res.prof_non_flexible⟩
      else
        ⟨res.x_flexible, res.y_flexible,
         r.p_slack :: res.x_non_flexible, r.q_slack :: res.y_non_flexible,
         res.prof_flexible, profile :: res.prof_non_flexible⟩

/-- The per-iteration trace of the sweep: each profile paired with the
outcome of its solve, with the network threaded exactly as in
`run_all_samples`. -/
noncomputable def sweep_outcomes (solve : Net → Option SolveRes) (st : Settings)
    (net : Net) : List (List (ℝ × ℝ)) → List (List (ℝ × ℝ) × Option SolveRes)
  | [] => []
  | profile :: rest =>
    let net' := update_pqs net st.fsp_wt st.fsp_pv profile 1 1
    (profile, solve net') :: sweep_outcomes solve st net' rest

/-- Number of sweep iterations whose solve failed (the discarded samples). -/
noncomputable def skipped_count (solve : Net → Option SolveRes) (st : Settings)
    (net : Net) (profiles : List (List (ℝ × ℝ))) : ℕ :=
  ((sweep_outcomes solve st net profiles).filter fun pr => pr.2.isNone).length

/-- Python float values with NaN made explicit, for the one place where NaN
behaviour is itself the subject of a claim (`sample_new_load_point`). -/
inductive FVal where
  | num : ℝ → FVal
  | nan : FVal

/-- Model of `np.sqrt` on floats: NaN on a negative argument, NaN propagates. -/
noncomputable def FVal.sqrt : FVal → FVal
  | .nan => .nan
  | .num r => if r < 0 then .nan else .num (Real.sqrt r)

/-- Float multiplication: NaN propagates. -/
def FVal.mul : FVal → FVal → FVal
  | .num a, .num b => .num (a * b)
  | _, _ => .nan

/-- Model of `np.isnan`. -/
def FVal.isnan : FVal → Bool
  | .nan => true
  | .num _ => false

/-- IEEE `>=` on floats: every comparison involving NaN is false. -/
def FVal.ge : FVal → FVal → Prop
  | .num a, .num b => a ≥ b
  | _, _ => False

open Classical in
/-- NaN-faithful model of one pass of the `flex_loads` loop body of
`sample_new_load_point` (data_sampler.py lines 256-278) for flexible load
`i` with raw draws `(raw0, raw1)`.  `printed` records whether the
`np.isnan(q_max)` diagnostic fired; after printing, the source falls
through to the clamp comparison, where `q_max >= abs(...)` is false for a
NaN `q_max`, so `q_new = q_max` (NaN) is stored in the sample. -/
noncomputable def load_point_entry_flex (loads : List LoadU) (i : ℕ)
    (raw0 raw1 : ℝ) : Bool × ℝ × FVal :=
  let load_change : ℝ := 1
  let ld := loads.getD i ⟨0, 0, 0⟩
  let p_perc := raw0
  let p_new0 := if p_perc ≥ 1 then ld.p_mw else if p_perc ≤ 0 then 0 else ld.p_mw * p_perc
  let p_new := load_change * p_new0
  let q_max := FVal.sqrt (.num (load_change * load_change * ld.sn_mva ^ 2 - p_new ^ 2))
  let printed := q_max.isnan
  let q_new0 :=
    if FVal.ge q_max (.num |load_change * ld.q_mvar * raw1|) then FVal.num (ld.q_mvar * raw1)
    else q_max
  let q_new := FVal.mul (.num load_change) q_new0
  (printed, p_new, q_new)

open Classical in
/-- NaN-faithful model of one pass of the loop body of
`sample_new_load_point` when `flex_loads` is empty (data_sampler.py lines
232-251): this branch has no `np.isnan` check at all, so a NaN `q_max`
flows silently into the clamp comparison and the stored sample. -/
noncomputable def load_point_entry_noflex (loads : List LoadU) (i : ℕ)
    (raw0 raw1 : ℝ) : ℝ × FVal :=
  let load_change : ℝ := 1
  let ld := loads.getD i ⟨0, 0, 0⟩
  let p_perc := raw0
  let p_new0 := if p_perc ≥ 1 then ld.p_mw else if p_perc ≤ 0 then 0 else ld.p_mw * p_perc
  let p_new := load_change * p_new0
  let q_max := FVal.sqrt (.num (load_change * load_change * ld.sn_mva ^ 2 - p_new ^ 2))
  let q_new0 :=
    if FVal.ge q_max (.num |load_change * ld.q_mvar * raw1|) then FVal.num (ld.q_mvar * raw1)
    else q_max
  let q_new := FVal.mul (.num load_change) q_new0
  (p_new, q_new)

/-! Theorems. -/

/-- Entry access for the `(List.range n).map` matrices built by the samplers. -/
lemma map_range_getD {α : Type} (f : ℕ → α) (n j : ℕ) (d : α) (h : j < n) :
    (((List.range n).map f).getD j d) = f j := by
  simp [List.getD_eq_getElem?_getD, List.getElem?_map, List.getElem?_range, h]

/-- Closed form of entry `(j, i)` of `sample_new_point`. -/
lemma sample_new_point_entry (sgen : List SGen) (random_p : List (List ℝ)) (n j i : ℕ)
    (hj : j < n) (hi : i < sgen.length) :
    ((sample_new_point sgen random_p n).getD j []).getD i (0, 0) =
      ((sgen.getD i ⟨0, 0, 0⟩).sn_mva * (random_p.getD (sgen.length * j + i) []).getD 0 0,
       (-1 : ℝ) ^ j * Real.sqrt ((sgen.getD i ⟨0, 0, 0⟩).sn_mva ^ 2 -
         ((sgen.getD i ⟨0, 0, 0⟩).sn_mva *
           (random_p.getD (sgen.length * j + i) []).getD 0 0) ^ 2)) := by
  unfold sample_new_point
  rw [map_range_getD _ _ _ _ hj, map_range_getD _ _ _ _ hi]

/-- Closed form of entry `(j, i)` of `sample_new_non_mp_point`. -/
lemma sample_new_non_mp_point_entry (sgen : List SGen) (random_p : List (List ℝ))
    (n j i : ℕ) (hj : j < n) (hi : i < sgen.length) :
    ((sample_new_non_mp_point sgen random_p n).getD j []).getD i (0, 0) =
      (let row := random_p.getD (sgen.length * j + i) []
       let sn := (sgen.getD i ⟨0, 0, 0⟩).sn_mva
       let p_new := if row.getD 0 0 ≥ 1 then sn else if row.getD 0 0 ≤ 0 then 0 else sn * row.getD 0 0
       let q_max := Real.sqrt (sn ^ 2 - p_new ^ 2)
       ((p_new : ℝ),
        if q_max ≥ |sn * row.getD 1 0| then (-1 : ℝ) ^ j * (sn * row.getD 1 0)
        else (-1 : ℝ) ^ j * q_max)) := by
  unfold sample_new_non_mp_point
  rw [map_range_getD _ _ _ _ hj, map_range_getD _ _ _ _ hi]

/-- Squares absorb the alternating sign factor. -/
lemma neg_one_pow_sq (j : ℕ) (x : ℝ) : ((-1 : ℝ) ^ j * x) ^ 2 = x ^ 2 := by
  rw [mul_pow, ← pow_mul, mul_comm j 2, pow_mul]
  norm_num

/-- C1 (amended): entries produced by `sample_new_non_mp_point`
(`keep_mp=false`) satisfy the apparent-power envelope
`p^2 + q^2 <= sn_mva^2 + eps` for every raw-draw input array; entries
produced by `sample_new_point` (`keep_mp=true`) satisfy it whenever the raw
draw used for that entry has `raw^2 <= 1` (for `|raw| > 1` the source takes
`np.sqrt` of a negative number, NaN, and the envelope bound fails — see the
counterexample). -/
theorem C1_envelope (sgen : List SGen) (random_p : List (List ℝ)) (n j i : ℕ) (eps : ℝ)
    (heps : 0 ≤ eps) (hj : j < n) (hi : i < sgen.length) :
    ((((sample_new_non_mp_point sgen random_p n).getD j []).getD i (0, 0)).1 ^ 2 +
       (((sample_new_non_mp_point sgen random_p n).getD j []).getD i (0, 0)).2 ^ 2 ≤
       (sgen.getD i ⟨0, 0, 0⟩).sn_mva ^ 2 + eps) ∧
    (((random_p.getD (sgen.length * j + i) []).getD 0 0) ^ 2 ≤ 1 →
      (((sample_new_point sgen random_p n).getD j []).getD i (0, 0)).1 ^ 2 +
        (((sample_new_point sgen random_p n).getD j []).getD i (0, 0)).2 ^ 2 ≤
        (sgen.getD i ⟨0, 0, 0⟩).sn_mva ^ 2 + eps) := by
  constructor
  · rw [sample_new_non_mp_point_entry sgen random_p n j i hj hi]
    set row := random_p.getD (sgen.length * j + i) [] with hrow
    set sn := (sgen.getD i ⟨0, 0, 0⟩).sn_mva with hsn
    simp only []
    set p_new := if row.getD 0 0 ≥ 1 then sn else if row.getD 0 0 ≤ 0 then 0 else sn * row.getD 0 0 with hp
    have hple : p_new ^ 2 ≤ sn ^ 2 := by
      rw [hp]
      split_ifs with h1 h2
      · exact le_refl _
      · simpa using sq_nonneg sn
      · push_neg at h1 h2
        have hr2 : (row.getD 0 0) ^ 2 ≤ 1 := by nlinarith
        have hh := mul_nonneg (sq_nonneg sn) (by linarith : (0 : ℝ) ≤ 1 - (row.getD 0 0) ^ 2)
        nlinarith
    have harg : 0 ≤ sn ^ 2 - p_new ^ 2 := by linarith
    have hqmax : Real.sqrt (sn ^ 2 - p_new ^ 2) ^ 2 = sn ^ 2 - p_new ^ 2 := Real.sq_sqrt harg
    split_ifs with hcl
    · have h1 : (sn * row.getD 1 0) ^ 2 ≤ Real.sqrt (sn ^ 2 - p_new ^ 2) ^ 2 := by
        have := abs_nonneg (sn * row.getD 1 0)
        nlinarith [sq_abs (sn * row.getD 1 0)]
      rw [neg_one_pow_sq]
      nlinarith
    · rw [neg_one_pow_sq]
      nlinarith
  · intro hdom
    rw [sample_new_point_entry sgen random_p n j i hj hi]
    set raw := (random_p.getD (sgen.length * j + i) []).getD 0 0 with hraw
    set sn := (sgen.getD i ⟨0, 0, 0⟩).sn_mva with hsn
    have hple : (sn * raw) ^ 2 ≤ sn ^ 2 := by nlinarith [sq_nonneg sn]
    have harg : 0 ≤ sn ^ 2 - (sn * raw) ^ 2 := by linarith
    have hqmax : Real.sqrt (sn ^ 2 - (sn * raw) ^ 2) ^ 2 = sn ^ 2 - (sn * raw) ^ 2 :=
      Real.sq_sqrt harg
    simp only [neg_one_pow_sq]
    nlinarith

/-- C1 counterexample: with one generator rated `sn_mva = 1` and raw draw
`2`, `sample_new_point` (keep_mp=true) produces `p_new = 2`, whose square
alone is `4 > sn_mva^2 + 1`; the envelope claim fails for this raw-draw
input array (in the source, `q_new` there is `np.sqrt(1-4) = NaN`, so the
comparison `p^2 + q^2 <= sn^2 + eps` fails for any tolerance). -/
theorem C1_counterexample :
    (((sample_new_point [⟨1, 0, 0⟩] [[2]] 1).getD 0 []).getD 0 (0, 0)).1 ^ 2 +
      (((sample_new_point [⟨1, 0, 0⟩] [[2]] 1).getD 0 []).getD 0 (0, 0)).2 ^ 2 = 4 ∧
    ¬ ((((sample_new_point [⟨1, 0, 0⟩] [[2]] 1).getD 0 []).getD 0 (0, 0)).1 ^ 2 +
        (((sample_new_point [⟨1, 0, 0⟩] [[2]] 1).getD 0 []).getD 0 (0, 0)).2 ^ 2 ≤
        (1 : ℝ) ^ 2 + 1) := by
  have h := sample_new_point_entry [⟨1, 0, 0⟩] [[2]] 1 0 0 (by norm_num) (by norm_num)
  rw [h]
  norm_num [List.getD]
  rw [Real.sqrt_eq_zero_of_nonpos (by norm_num)]
  norm_num

/-- C1 witness: both envelope bounds of `C1_envelope` at a concrete input
(one generator rated 1, raw draws `(3/5, 2)`, tolerance 0). -/
theorem C1_witness :
    ((((sample_new_non_mp_point [⟨1, 0, 0⟩] [[3 / 5, 2]] 1).getD 0 []).getD 0 (0, 0)).1 ^ 2 +
       (((sample_new_non_mp_point [⟨1, 0, 0⟩] [[3 / 5, 2]] 1).getD 0 []).getD 0 (0, 0)).2 ^ 2 ≤
       (([⟨1, 0, 0⟩] : List SGen).getD 0 ⟨0, 0, 0⟩).sn_mva ^ 2 + 0) ∧
    ((((sample_new_point [⟨1, 0, 0⟩] [[3 / 5, 2]] 1).getD 0 []).getD 0 (0, 0)).1 ^ 2 +
       (((sample_new_point [⟨1, 0, 0⟩] [[3 / 5, 2]] 1).getD 0 []).getD 0 (0, 0)).2 ^ 2 ≤
       (([⟨1, 0, 0⟩] : List SGen).getD 0 ⟨0, 0, 0⟩).sn_mva ^ 2 + 0) := by
  have h := C1_envelope [⟨1, 0, 0⟩] [[3 / 5, 2]] 1 0 0 0 (le_refl 0) (by norm_num) (by norm_num)
  exact ⟨h.1, h.2 (by norm_num [List.getD])⟩

/-- C6: in `sample_new_point` (keep_mp=true), when the raw draw used for
FSP `i` is the same at iterations `j` and `j+1` (and lies in the real
domain of the square root), the reactive powers at consecutive iterations
are negations of each other, and iteration `j` has
`q_new = (-1)^j * sqrt(sn_mva^2 - p_new^2)`. -/
theorem C6_sign_alternation (sgen : List SGen) (random_p : List (List ℝ)) (n j i : ℕ)
    (hj : j + 1 < n) (hi : i < sgen.length)
    (hfix : (random_p.getD (sgen.length * (j + 1) + i) []).getD 0 0 =
            (random_p.getD (sgen.length * j + i) []).getD 0 0)
    (_hdom : ((random_p.getD (sgen.length * j + i) []).getD 0 0) ^ 2 ≤ 1) :
    (((sample_new_point sgen random_p n).getD (j + 1) []).getD i (0, 0)).2 =
      -(((sample_new_point sgen random_p n).getD j []).getD i (0, 0)).2 ∧
    (((sample_new_point sgen random_p n).getD j []).getD i (0, 0)).2 =
      (-1 : ℝ) ^ j * Real.sqrt ((sgen.getD i ⟨0, 0, 0⟩).sn_mva ^ 2 -
        (((sample_new_point sgen random_p n).getD j []).getD i (0, 0)).1 ^ 2) := by
  have hj' : j < n := Nat.lt_of_succ_lt hj
  rw [sample_new_point_entry sgen random_p n (j + 1) i hj hi,
      sample_new_point_entry sgen random_p n j i hj' hi, hfix]
  refine ⟨?_, rfl⟩
  simp only [pow_succ]
  ring

/-- C6 witness: one generator rated 1, raw draw `3/5` at iterations 0 and 1. -/
theorem C6_witness :
    (((sample_new_point [⟨1, 0, 0⟩] [[3 / 5], [3 / 5]] 2).getD 1 []).getD 0 (0, 0)).2 =
      -(((sample_new_point [⟨1, 0, 0⟩] [[3 / 5], [3 / 5]] 2).getD 0 []).getD 0 (0, 0)).2 ∧
    (((sample_new_point [⟨1, 0, 0⟩] [[3 / 5], [3 / 5]] 2).getD 0 []).getD 0 (0, 0)).2 =
      (-1 : ℝ) ^ 0 * Real.sqrt ((([⟨1, 0, 0⟩] : List SGen).getD 0 ⟨0, 0, 0⟩).sn_mva ^ 2 -
        (((sample_new_point [⟨1, 0, 0⟩] [[3 / 5], [3 / 5]] 2).getD 0 []).getD 0 (0, 0)).1 ^ 2) :=
  C6_sign_alternation [⟨1, 0, 0⟩] [[3 / 5], [3 / 5]] 2 0 0 (by norm_num) (by norm_num)
    (by norm_num [List.getD]) (by norm_num [List.getD])

open Classical in
/-- Selection of the converged sweep iterations whose result satisfies `p`,
projected through `f`; used to state which iterations land in which bucket. -/
noncomputable def sweep_picks {α : Type} (p : SolveRes → Prop)
    (f : List (ℝ × ℝ) → SolveRes → α)
    (tr : List (List (ℝ × ℝ) × Option SolveRes)) : List α :=
  tr.filterMap fun pr => pr.2.bind fun r => if p r then some (f pr.1 r) else none

/-- C4: a converged solve is appended to the feasible bucket exactly when
all three limit checks hold (voltage within `[min_volt, max_volt]`, every
line loading within `max_curr`, every transformer loading within
`max_curr`), and to the infeasible bucket otherwise; each bucket holds the
slack-bus P, slack-bus Q and source profile of exactly those iterations, in
sweep order. -/
theorem C4_classification (solve : Net → Option SolveRes) (st : Settings) (net : Net)
    (profiles : List (List (ℝ × ℝ))) :
    (run_all_samples solve st net profiles).x_flexible =
      sweep_picks (feasible_res st) (fun _ r => r.p_slack) (sweep_outcomes solve st net profiles) ∧
    (run_all_samples solve st net profiles).y_flexible =
      sweep_picks (feasible_res st) (fun _ r => r.q_slack) (sweep_outcomes solve st net profiles) ∧
    (run_all_samples solve st net profiles).prof_flexible =
      sweep_picks (feasible_res st) (fun p _ => p) (sweep_outcomes solve st net profiles) ∧
    (run_all_samples solve st net profiles).x_non_flexible =
      sweep_picks (fun r => ¬ feasible_res st r) (fun _ r => r.p_slack)
        (sweep_outcomes solve st net profiles) ∧
    (run_all_samples solve st net profiles).y_non_flexible =
      sweep_picks (fun r => ¬ feasible_res st r) (fun _ r => r.q_slack)
        (sweep_outcomes solve st net profiles) ∧
    (run_all_samples solve st net profiles).prof_non_flexible =
      sweep_picks (fun r => ¬ feasible_res st r) (fun p _ => p)
        (sweep_outcomes solve st net profiles) := by
  induction profiles generalizing net with
  | nil => simp [run_all_samples, sweep_outcomes, sweep_picks]
  | cons prof rest ih =>
    simp only [run_all_samples, sweep_outcomes, sweep_picks, List.filterMap_cons]
    cases hs : solve (update_pqs net st.fsp_wt st.fsp_pv prof 1 1) with
    | none =>
      simpa [sweep_picks] using ih (update_pqs net st.fsp_wt st.fsp_pv prof 1 1)
    | some r =>
      have h := ih (update_pqs net st.fsp_wt st.fsp_pv prof 1 1)
      by_cases hf : feasible_res st r <;>
        simp [sweep_picks, hf, h.1, h.2.1, h.2.2.1, h.2.2.2.1, h.2.2.2.2.1, h.2.2.2.2.2]

/-- C5: a failed solve contributes to neither bucket and the sweep
continues; afterwards the two buckets and the skipped count partition the
profile batch, and each bucket's slack-P, slack-Q and profile lists are
index-aligned (equal lengths). -/
theorem C5_partition (solve : Net → Option SolveRes) (st : Settings) (net : Net)
    (profiles : List (List (ℝ × ℝ))) :
    (run_all_samples solve st net profiles).x_flexible.length +
        (run_all_samples solve st net profiles).x_non_flexible.length +
        skipped_count solve st net profiles = profiles.length ∧
    (run_all_samples solve st net profiles).y_flexible.length =
      (run_all_samples solve st net profiles).x_flexible.length ∧
    (run_all_samples solve st net profiles).prof_flexible.length =
      (run_all_samples solve st net profiles).x_flexible.length ∧
    (run_all_samples solve st net profiles).y_non_flexible.length =
      (run_all_samples solve st net profiles).x_non_flexible.length ∧
    (run_all_samples solve st net profiles).prof_non_flexible.length =
      (run_all_samples solve st net profiles).x_non_flexible.length := by
  induction profiles generalizing net with
  | nil => simp [run_all_samples, sweep_outcomes, skipped_count]
  | cons prof rest ih =>
    simp only [run_all_samples, sweep_outcomes, skipped_count, List.filter_cons]
    cases hs : solve (update_pqs net st.fsp_wt st.fsp_pv prof 1 1) with
    | none =>
      have h := ih (update_pqs net st.fsp_wt st.fsp_pv prof 1 1)
      simp only [skipped_count] at h
      simp [h.1, h.2.1, h.2.2.1, h.2.2.2.1, h.2.2.2.2]
      omega
    | some r =>
      have h := ih (update_pqs net st.fsp_wt st.fsp_pv prof 1 1)
      simp only [skipped_count] at h
      by_cases hf : feasible_res st r <;>
        · simp [hf, h.2.1, h.2.2.1, h.2.2.2.1, h.2.2.2.2]
          omega

/-- C9: evaluating `update_pqs` and `update_pqs_wl` with default scales 1 on
a network whose sgen 1 is not flexible (`p_mw = 3`, `q_mvar = 7`): the
non-flexible branch executes `q_mvar[i] = p_mw[i]*scale` (utils.py line 70,
and the identical line 158 of `update_pqs_wl`), overwriting `q_mvar` with
`p_mw` — the entry is changed from 7 to 3, although the profile only names
sgen 0 as flexible. -/
theorem C9_nonflexible_q_overwritten :
    ((update_pqs ⟨[⟨1, 2, 5⟩, ⟨1, 3, 7⟩], []⟩ [] [0] [(11, 13), (0, 0)] 1 1).sgen.getD 1
        ⟨0, 0, 0⟩).q_mvar = 3 ∧
    ((update_pqs_wl ⟨[⟨1, 2, 5⟩, ⟨1, 3, 7⟩], [⟨4, 5, 6⟩]⟩ [] [0] [(11, 13), (0, 0), (20, 21)]
          1 1 [0]).sgen.getD 1 ⟨0, 0, 0⟩).q_mvar = 3 ∧
    ((⟨[⟨1, 2, 5⟩, ⟨1, 3, 7⟩], []⟩ : Net).sgen.getD 1 ⟨0, 0, 0⟩).q_mvar = 7 ∧
    (3 : ℝ) ≠ 7 := by
  refine ⟨?_, ?_, by norm_num [List.getD], by norm_num⟩ <;>
    norm_num [update_pqs, update_pqs_wl, update_sgen_row, List.range_succ, List.getD]

/-- C10: with the Python default `services='DG Only'` (capital O), none of
the case-sensitively compared tags `DG only`, `All`, `Load only` matches,
so `profile_creation` hits the `assert False` immediately, for every other
argument, before any sampling happens. -/
theorem C10_default_services_asserts (s21 : ℕ → ℝ) (no_samples : ℕ) (net : Net)
    (distribution : String) (keep_mp : Bool) :
    profile_creation_default s21 no_samples net distribution keep_mp =
      .error "Error: Choose FSPs from \x7bAll, Load only, DG only\x7d" := by
  unfold profile_creation_default profile_creation
  rw [if_neg (by decide), if_neg (by decide), if_neg (by decide)]

/-- Row count of `sample_from_rng` for `Normal_Limits_Oriented` with
`dof = 2`: three quarters of `floor(m/4)` rows plus a fourth block of
`m - floor(m/4)` rows. -/
lemma sample_from_rng_nlo2_length (m : ℕ) (rng : RNG) :
    (sample_from_rng "Normal_Limits_Oriented" m 2 rng).toOption.map
        (fun pr => pr.1.length) = some (3 * (m / 4) + (m - m / 4)) := by
  unfold sample_from_rng
  rw [if_neg (by decide), if_neg (by decide), if_pos rfl, if_neg (by decide), if_pos rfl]
  simp [Except.toOption, concat_axis1, rng_normal, RNG.cells]
  omega

/-- C3: `sample_from_rng('Normal_Limits_Oriented', 4, 2, rng)` returns 6
rows, not 4: the source sizes quarter 4 as `no_samples_dg - int(no_samples_dg/4)`
(data_sampler.py lines 144-145) instead of the remainder
`no_samples_dg - 3*int(no_samples_dg/4)`, contradicting its own comment
that each quarter holds 25% of the samples. -/
theorem C3_quarter_sizing (s : ℕ → ℝ) :
    (sample_from_rng "Normal_Limits_Oriented" 4 2 ⟨s, 0⟩).toOption.map
        (fun pr => pr.1.length) = some 6 ∧ (6 : ℕ) ≠ 4 := by
  refine ⟨?_, by norm_num⟩
  rw [sample_from_rng_nlo2_length]

/-- Row count of `rng.normal(mu, sigma, [n, d])`. -/
lemma rng_normal_fst_length (r : RNG) (mu sigma : ℝ) (n d : ℕ) :
    (rng_normal r mu sigma n d).1.length = n := by
  simp [rng_normal, RNG.cells]

/-- Batch length of `sample_new_point`. -/
lemma sample_new_point_length (sgen : List SGen) (rp : List (List ℝ)) (n : ℕ) :
    (sample_new_point sgen rp n).length = n := by
  simp [sample_new_point]

/-- Batch length of `sample_new_non_mp_point`. -/
lemma sample_new_non_mp_point_length (sgen : List SGen) (rp : List (List ℝ)) (n : ℕ) :
    (sample_new_non_mp_point sgen rp n).length = n := by
  simp [sample_new_non_mp_point]

/-- Batch length of `sample_new_load_point`. -/
lemma sample_new_load_point_length (loads : List LoadU) (rp : List (List ℝ)) (n : ℕ)
    (fl : List ℕ) : (sample_new_load_point loads rp n fl).length = n := by
  unfold sample_new_load_point
  split <;> simp

/-- The distribution tags `sample_from_rng` accepts. -/
def valid_distribution (d : String) : Prop :=
  d = "Normal" ∨ d = "Uniform" ∨ d = "Normal_Limits_Oriented" ∨ d = "No_change"

/-- For an accepted tag and `dof` in `{1, 2}`, `sample_from_rng` succeeds. -/
lemma sample_from_rng_ok (dist : String) (m dof : ℕ) (rng : RNG)
    (h : valid_distribution dist) (hd : dof = 1 ∨ dof = 2) :
    ∃ mat r', sample_from_rng dist m dof rng = .ok (mat, r') := by
  rcases h with h | h | h | h <;> subst h <;> unfold sample_from_rng
  · exact ⟨_, _, rfl⟩
  · exact ⟨_, _, by rw [if_neg (by decide), if_pos rfl]⟩
  · rcases hd with hd | hd <;> subst hd
    · exact ⟨_, _, by rw [if_neg (by decide), if_neg (by decide), if_pos rfl, if_pos rfl]⟩
    · exact ⟨_, _, by
        rw [if_neg (by decide), if_neg (by decide), if_pos rfl, if_neg (by decide),
          if_pos rfl]⟩
  · exact ⟨_, _, by
      rw [if_neg (by decide), if_neg (by decide), if_neg (by decide), if_pos rfl]⟩

/-- For an accepted tag, `create_samples` succeeds with batch length
`no_samples`. -/
lemma create_samples_ok (n : ℕ) (net : Net) (dist : String) (kmp : Bool) (rng : RNG)
    (h : valid_distribution dist) :
    ∃ ps r', create_samples n net dist kmp rng = .ok (ps, r') ∧ ps.length = n := by
  unfold create_samples
  cases kmp
  · obtain ⟨mat, r', hok⟩ :=
      sample_from_rng_ok dist (n * net.sgen.length) 2 rng h (Or.inr rfl)
    rw [hok]
    exact ⟨_, r', rfl, sample_new_non_mp_point_length _ _ _⟩
  · obtain ⟨mat, r', hok⟩ :=
      sample_from_rng_ok dist (n * net.sgen.length) 1 rng h (Or.inl rfl)
    rw [hok]
    exact ⟨_, r', rfl, sample_new_point_length _ _ _⟩

/-- For an accepted tag, `create_load_samples` succeeds with batch length
`no_samples`. -/
lemma create_load_samples_ok (n : ℕ) (net : Net) (dist : String) (fl : List ℕ) (rng : RNG)
    (h : valid_distribution dist) :
    ∃ ps r', create_load_samples n net dist fl rng = .ok (ps, r') ∧ ps.length = n := by
  unfold create_load_samples
  obtain ⟨mat, r', hok⟩ :=
    sample_from_rng_ok dist (n * flex_load_count net fl) 2 rng h (Or.inr rfl)
  rw [hok]
  exact ⟨_, r', rfl, sample_new_load_point_length _ _ _ _⟩

/-- The `services='All'` blend succeeds for an accepted tag and its batch
length is `floor(N/2) + floor(N/8) + floor(3N/8)`. -/
lemma profile_creation_all_ok (s21 : ℕ → ℝ) (N : ℕ) (net : Net) (dist : String)
    (kmp : Bool) (floads : List ℕ) (hdist : valid_distribution dist) :
    ∃ ps, profile_creation s21 N net dist kmp "All" floads = .ok ps ∧
      ps.length = N / 2 + N / 8 + 3 * N / 8 := by
  obtain ⟨ps1, r1, h1, hl1⟩ := create_samples_ok (N / 2) net dist kmp ⟨s21, 0⟩ hdist
  obtain ⟨ps2, r2, h2, hl2⟩ := create_load_samples_ok (N / 2) net dist floads r1 hdist
  obtain ⟨ps3, r3, h3, hl3⟩ :=
    create_samples_ok (1 * N / 8) net "No_change" kmp r2 (by right; right; right; rfl)
  obtain ⟨ps4, r4, h4, hl4⟩ :=
    create_load_samples_ok (3 * N / 8) net "No_change" floads r3 (by right; right; right; rfl)
  unfold profile_creation
  rw [if_neg (by decide : ¬ ("All" : String) = "DG only"), if_pos rfl]
  simp only [h1, h2, h3, h4]
  refine ⟨_, rfl, ?_⟩
  simp [concat_axis1, hl1, hl2, hl3, hl4]
  omega

/-- C2 (amended): for `services='All'` the produced batch has exactly
`floor(N/2) + floor(N/8) + floor(3N/8)` profiles — the integer-division
remainder is dropped, not reassigned to any sub-batch — and this equals the
requested `no_samples` exactly when `no_samples` is divisible by 8.  The
unused hypotheses record when the numpy `concatenate` calls of the source
are well-formed (nonempty sub-batches and FSP sets). -/
theorem C2_batch_size (s21 : ℕ → ℝ) (N : ℕ) (net : Net) (dist : String) (kmp : Bool)
    (floads : List ℕ) (hdist : valid_distribution dist) (_h8 : 8 ≤ N)
    (_hsg : net.sgen ≠ []) (_hfl : 0 < flex_load_count net floads) :
    ∃ ps, profile_creation s21 N net dist kmp "All" floads = .ok ps ∧
      ps.length = N / 2 + N / 8 + 3 * N / 8 ∧ (ps.length = N ↔ N % 8 = 0) := by
  obtain ⟨ps, hok, hl⟩ := profile_creation_all_ok s21 N net dist kmp floads hdist
  exact ⟨ps, hok, hl, by omega⟩

/-- C2 witness: a concrete `services='All'` run with `no_samples = 16`
returns exactly 16 profiles. -/
theorem C2_witness :
    ∃ ps, profile_creation (fun _ => 0) 16 ⟨[⟨1, 1, 0⟩], [⟨1, 1, 1⟩]⟩ "No_change" true
        "All" [] = .ok ps ∧
      ps.length = 16 / 2 + 16 / 8 + 3 * 16 / 8 ∧ (ps.length = 16 ↔ 16 % 8 = 0) :=
  C2_batch_size (fun _ => 0) 16 ⟨[⟨1, 1, 0⟩], [⟨1, 1, 1⟩]⟩ "No_change" true []
    (by right; right; right; rfl) (by norm_num) (by simp) (by simp [flex_load_count])

/-- C2 counterexample: `no_samples = 10` with `services='All'` yields
`5 + 1 + 3 = 9` profiles, not 10 — no sub-batch absorbs the remainder. -/
theorem C2_counterexample :
    (profile_creation (fun _ => 0) 10 ⟨[⟨1, 1, 0⟩], [⟨1, 1, 1⟩]⟩ "No_change" true
        "All" []).toOption.map List.length = some 9 ∧ (9 : ℕ) ≠ 10 := by
  obtain ⟨ps, hok, hl⟩ := profile_creation_all_ok (fun _ => 0) 10 ⟨[⟨1, 1, 0⟩], [⟨1, 1, 1⟩]⟩
    "No_change" true [] (by right; right; right; rfl)
  rw [hok]
  refine ⟨?_, by norm_num⟩
  simp [Except.toOption, hl]

/-- C7: on a load whose rating is inconsistent with the clamped active power
(`p_mw = 2`, `sn_mva = 1`, `q_mvar = 1/2`, raw draws `(0.9, 1)`), the
reactive budget is `sqrt(1 - (9/5)^2) = NaN`.  In the `flex_loads` branch
the source detects it (`np.isnan`, modelled by the `true` flag) but only
prints and continues: the NaN flows into the clamp comparison (false under
IEEE semantics) and is stored as the sample's `q_new`.  In the
all-loads-flexible branch there is no check at all and the NaN is stored
silently.  In neither branch does the sample fail. -/
theorem C7_nan_propagation :
    load_point_entry_flex [⟨2, 1 / 2, 1⟩] 0 (9 / 10) 1 = (true, 9 / 5, FVal.nan) ∧
    load_point_entry_noflex [⟨2, 1 / 2, 1⟩] 0 (9 / 10) 1 = (9 / 5, FVal.nan) := by
  constructor <;>
    norm_num [load_point_entry_flex, load_point_entry_noflex, List.getD,
      FVal.sqrt, FVal.ge, FVal.mul, FVal.isnan]

/-- Two generator states with the same cursor whose seed streams agree on
every position below `N`. -/
def EqTo (N : ℕ) (r₁ r₂ : RNG) : Prop :=
  r₁.pos = r₂.pos ∧ ∀ k, k < N → r₁.s k = r₂.s k

/-- Advancing preserves stream agreement. -/
lemma EqTo.advance {N : ℕ} {r₁ r₂ : RNG} (h : EqTo N r₁ r₂) (k : ℕ) :
    EqTo N (r₁.advance k) (r₂.advance k) :=
  ⟨by simp [RNG.advance, h.1], h.2⟩

/-- Agreeing streams read the same cell block while it stays below `N`. -/
lemma EqTo.cells {N : ℕ} {r₁ r₂ : RNG} (h : EqTo N r₁ r₂) (n d : ℕ)
    (hle : r₁.pos + n * d ≤ N) : r₁.cells n d = r₂.cells n d := by
  unfold RNG.cells
  apply List.map_congr_left
  intro i hi
  apply List.map_congr_left
  intro j hj
  rw [List.mem_range] at hi hj
  rw [← h.1]
  apply h.2
  have hlt : i * d + j < n * d := by
    calc i * d + j < i * d + d := by omega
    _ = (i + 1) * d := by ring
    _ ≤ n * d := Nat.mul_le_mul_right d (by omega)
  omega

/-- `rng.normal` transports stream agreement: same values out, agreement
kept, while its block stays below `N`. -/
lemma rng_normal_eqto {N : ℕ} {r₁ r₂ : RNG} (h : EqTo N r₁ r₂) (mu sigma : ℝ)
    (n d : ℕ) (hle : r₁.pos + n * d ≤ N) :
    (rng_normal r₁ mu sigma n d).1 = (rng_normal r₂ mu sigma n d).1 ∧
      EqTo N (rng_normal r₁ mu sigma n d).2 (rng_normal r₂ mu sigma n d).2 :=
  ⟨by simp [rng_normal, h.cells n d hle], h.advance (n * d)⟩

/-- `rng.uniform` transports stream agreement the same way. -/
lemma rng_uniform_eqto {N : ℕ} {r₁ r₂ : RNG} (h : EqTo N r₁ r₂) (a b : ℝ)
    (n d : ℕ) (hle : r₁.pos + n * d ≤ N) :
    (rng_uniform r₁ a b n d).1 = (rng_uniform r₂ a b n d).1 ∧
      EqTo N (rng_uniform r₁ a b n d).2 (rng_uniform r₂ a b n d).2 :=
  ⟨by simp [rng_uniform, h.cells n d hle], h.advance (n * d)⟩

/-- Number of primitive draws one `sample_from_rng` call consumes, by
distribution tag (0 on the error branches, which do not draw). -/
def sfr_consumed (distribution : String) (m dof : ℕ) : ℕ :=
  if distribution = "Normal" then m * dof
  else if distribution = "Uniform" then m * dof
  else if distribution = "Normal_Limits_Oriented" then
    if dof = 1 then m * dof
    else if dof = 2 then
      m / 4 * 2 + m / 4 * 1 + m / 4 * 1 + m / 4 * 1 + m / 4 * 1 +
        (m - m / 4) * 1 + (m - m / 4) * 1
    else 0
  else 0

/-- `sample_from_rng` transports stream agreement: under agreement up to the
consumed block, the two runs err identically or return identical matrices,
with agreement kept and the cursor advanced by exactly the consumed count. -/
lemma sample_from_rng_eqto {N : ℕ} {r₁ r₂ : RNG} (h : EqTo N r₁ r₂)
    (dist : String) (m dof : ℕ)
    (hle : r₁.pos + sfr_consumed dist m dof ≤ N) :
    (∃ e, sample_from_rng dist m dof r₁ = .error e ∧
      sample_from_rng dist m dof r₂ = .error e) ∨
    (∃ mat u₁ u₂, sample_from_rng dist m dof r₁ = .ok (mat, u₁) ∧
      sample_from_rng dist m dof r₂ = .ok (mat, u₂) ∧ EqTo N u₁ u₂ ∧
      u₁.pos = r₁.pos + sfr_consumed dist m dof) := by
  unfold sample_from_rng
  unfold sfr_consumed at hle ⊢
  split_ifs at hle ⊢ with h1 h2 h3 h4 h5
  · obtain ⟨hm, hr⟩ := rng_normal_eqto h 1 0.02 m dof hle
    refine .inr ⟨(rng_normal r₁ 1 0.02 m dof).1, (rng_normal r₁ 1 0.02 m dof).2,
      (rng_normal r₂ 1 0.02 m dof).2, rfl, ?_, hr, rfl⟩
    rw [hm]
  · obtain ⟨hm, hr⟩ := rng_uniform_eqto h 0 1 m dof hle
    refine .inr ⟨(rng_uniform r₁ 0 1 m dof).1, (rng_uniform r₁ 0 1 m dof).2,
      (rng_uniform r₂ 0 1 m dof).2, rfl, ?_, hr, rfl⟩
    rw [hm]
  · obtain ⟨hm, hr⟩ := rng_normal_eqto h 1 1 m dof hle
    refine .inr ⟨(rng_normal r₁ 1 1 m dof).1, (rng_normal r₁ 1 1 m dof).2,
      (rng_normal r₂ 1 1 m dof).2, rfl, ?_, hr, rfl⟩
    rw [hm]
  · obtain ⟨c1m, c1⟩ := rng_normal_eqto h 0 1 (m / 4) 2 (by omega)
    have p1 : (rng_normal r₁ 0 1 (m / 4) 2).2.pos = r₁.pos + m / 4 * 2 := rfl
    obtain ⟨c2m, c2⟩ := rng_normal_eqto c1 0 1 (m / 4) 1 (by rw [p1]; omega)
    have p2 : (rng_normal (rng_normal r₁ 0 1 (m / 4) 2).2 0 1 (m / 4) 1).2.pos =
        r₁.pos + m / 4 * 2 + m / 4 * 1 := rfl
    obtain ⟨c3m, c3⟩ := rng_normal_eqto c2 1 1 (m / 4) 1 (by rw [p2]; omega)
    have p3 : (rng_normal (rng_normal (rng_normal r₁ 0 1 (m / 4) 2).2 0 1 (m / 4) 1).2
        1 1 (m / 4) 1).2.pos = r₁.pos + m / 4 * 2 + m / 4 * 1 + m / 4 * 1 := rfl
    obtain ⟨c4m, c4⟩ := rng_normal_eqto c3 1 1 (m / 4) 1 (by rw [p3]; omega)
    have p4 : (rng_normal (rng_normal (rng_normal (rng_normal r₁ 0 1 (m / 4) 2).2
        0 1 (m / 4) 1).2 1 1 (m / 4) 1).2 1 1 (m / 4) 1).2.pos =
        r₁.pos + m / 4 * 2 + m / 4 * 1 + m / 4 * 1 + m / 4 * 1 := rfl
    obtain ⟨c5m, c5⟩ := rng_normal_eqto c4 0 1 (m / 4) 1 (by rw [p4]; omega)
    have p5 : (rng_normal (rng_normal (rng_normal (rng_normal (rng_normal r₁
        0 1 (m / 4) 2).2 0 1 (m / 4) 1).2 1 1 (m / 4) 1).2 1 1 (m / 4) 1).2
        0 1 (m / 4) 1).2.pos =
        r₁.pos + m / 4 * 2 + m / 4 * 1 + m / 4 * 1 + m / 4 * 1 + m / 4 * 1 := rfl
    obtain ⟨c6m, c6⟩ := rng_normal_eqto c5 0.5 1 (m - m / 4) 1 (by rw [p5]; omega)
    have p6 : (rng_normal (rng_normal (rng_normal (rng_normal (rng_normal (rng_normal r₁
        0 1 (m / 4) 2).2 0 1 (m / 4) 1).2 1 1 (m / 4) 1).2 1 1 (m / 4) 1).2
        0 1 (m / 4) 1).2 0.5 1 (m - m / 4) 1).2.pos =
        r₁.pos + m / 4 * 2 + m / 4 * 1 + m / 4 * 1 + m / 4 * 1 + m / 4 * 1 +
          (m - m / 4) * 1 := rfl
    obtain ⟨c7m, c7⟩ := rng_normal_eqto c6 0.5 1 (m - m / 4) 1 (by rw [p6]; omega)
    refine .inr ⟨_, _, _, rfl, ?_, c7, ?_⟩
    · rw [c1m, c2m, c3m, c4m, c5m, c6m, c7m]
    · simp only [rng_normal, RNG.advance]
      omega
  · exact .inl ⟨_, rfl, rfl⟩
  · exact .inr ⟨_, _, _, rfl, rfl, h, by omega⟩
  · exact .inl ⟨_, rfl, rfl⟩

/-- Draws consumed by one `create_samples` call. -/
def cs_consumed (n : ℕ) (net : Net) (dist : String) (kmp : Bool) : ℕ :=
  if kmp then sfr_consumed dist (n * net.sgen.length) 1
  else sfr_consumed dist (n * net.sgen.length) 2

/-- Draws consumed by one `create_load_samples` call. -/
def cls_consumed (n : ℕ) (net : Net) (dist : String) (floads : List ℕ) : ℕ :=
  sfr_consumed dist (n * flex_load_count net floads) 2

/-- `create_samples` transports stream agreement. -/
lemma create_samples_eqto {N : ℕ} {r₁ r₂ : RNG} (h : EqTo N r₁ r₂) (n : ℕ) (net : Net)
    (dist : String) (kmp : Bool) (hle : r₁.pos + cs_consumed n net dist kmp ≤ N) :
    (∃ e, create_samples n net dist kmp r₁ = .error e ∧
      create_samples n net dist kmp r₂ = .error e) ∨
    (∃ ps u₁ u₂, create_samples n net dist kmp r₁ = .ok (ps, u₁) ∧
      create_samples n net dist kmp r₂ = .ok (ps, u₂) ∧ EqTo N u₁ u₂ ∧
      u₁.pos = r₁.pos + cs_consumed n net dist kmp) := by
  unfold create_samples
  unfold cs_consumed at hle ⊢
  cases kmp
  · simp only [Bool.false_eq_true, if_false] at hle ⊢
    rcases sample_from_rng_eqto h dist (n * net.sgen.length) 2 hle with
      ⟨e, e1, e2⟩ | ⟨mat, u₁, u₂, o1, o2, hu, hp⟩
    · rw [e1, e2]
      exact .inl ⟨e, rfl, rfl⟩
    · rw [o1, o2]
      exact .inr ⟨_, u₁, u₂, rfl, rfl, hu, hp⟩
  · simp only [if_true] at hle ⊢
    rcases sample_from_rng_eqto h dist (n * net.sgen.length) 1 hle with
      ⟨e, e1, e2⟩ | ⟨mat, u₁, u₂, o1, o2, hu, hp⟩
    · rw [e1, e2]
      exact .inl ⟨e, rfl, rfl⟩
    · rw [o1, o2]
      exact .inr ⟨_, u₁, u₂, rfl, rfl, hu, hp⟩

/-- `create_load_samples` transports stream agreement. -/
lemma create_load_samples_eqto {N : ℕ} {r₁ r₂ : RNG} (h : EqTo N r₁ r₂) (n : ℕ)
    (net : Net) (dist : String) (floads : List ℕ)
    (hle : r₁.pos + cls_consumed n net dist floads ≤ N) :
    (∃ e, create_load_samples n net dist floads r₁ = .error e ∧
      create_load_samples n net dist floads r₂ = .error e) ∨
    (∃ ps u₁ u₂, create_load_samples n net dist floads r₁ = .ok (ps, u₁) ∧
      create_load_samples n net dist floads r₂ = .ok (ps, u₂) ∧ EqTo N u₁ u₂ ∧
      u₁.pos = r₁.pos + cls_consumed n net dist floads) := by
  unfold create_load_samples
  unfold cls_consumed at hle ⊢
  rcases sample_from_rng_eqto h dist (n * flex_load_count net floads) 2 hle with
    ⟨e, e1, e2⟩ | ⟨mat, u₁, u₂, o1, o2, hu, hp⟩
  · rw [e1, e2]
    exact .inl ⟨e, rfl, rfl⟩
  · rw [o1, o2]
    exact .inr ⟨_, u₁, u₂, rfl, rfl, hu, hp⟩

/-- Total number of primitive draws one `profile_creation` call consumes
from the seeded stream (a function of the arguments only: shapes never
depend on drawn values). -/
def pc_consumed (no_samples : ℕ) (net : Net) (dist : String) (kmp : Bool)
    (services : String) (floads : List ℕ) : ℕ :=
  if services = "DG only" then cs_consumed no_samples net dist kmp
  else if services = "All" then
    cs_consumed (no_samples / 2) net dist kmp +
      cls_consumed (no_samples / 2) net dist floads +
      cs_consumed (1 * no_samples / 8) net "No_change" kmp +
      cls_consumed (3 * no_samples / 8) net "No_change" floads
  else if services = "Load only" then
    cs_consumed no_samples net "No_change" kmp + cls_consumed no_samples net dist floads
  else 0

/-- C8: `profile_creation` is a deterministic function of the seeded stream
and its arguments: two runs whose seed streams agree on the consumed prefix
(in particular, two runs from the same seed) produce identical profile
batches, because sampling calls read the shared stream in one fixed order. -/
theorem C8_determinism (no_samples : ℕ) (net : Net) (dist : String) (kmp : Bool)
    (services : String) (floads : List ℕ) (s₁ s₂ : ℕ → ℝ)
    (hs : ∀ k, k < pc_consumed no_samples net dist kmp services floads → s₁ k = s₂ k) :
    profile_creation s₁ no_samples net dist kmp services floads =
      profile_creation s₂ no_samples net dist kmp services floads := by
  unfold profile_creation
  unfold pc_consumed at hs
  have hp0 : (⟨s₁, 0⟩ : RNG).pos = 0 := rfl
  by_cases hsv1 : services = "DG only"
  · have hs' : ∀ k, k < cs_consumed no_samples net dist kmp → s₁ k = s₂ k :=
      fun k hk => hs k (by rw [if_pos hsv1]; exact hk)
    have h0 : EqTo (cs_consumed no_samples net dist kmp) ⟨s₁, 0⟩ ⟨s₂, 0⟩ := ⟨rfl, hs'⟩
    rcases create_samples_eqto h0 no_samples net dist kmp (by omega) with
      ⟨e, e1, e2⟩ | ⟨ps, u₁, u₂, o1, o2, _, _⟩
    · simp only [if_pos hsv1, e1, e2]
    · simp only [if_pos hsv1, o1, o2]
  by_cases hsv2 : services = "All"
  · have hs' : ∀ k, k < cs_consumed (no_samples / 2) net dist kmp +
        cls_consumed (no_samples / 2) net dist floads +
        cs_consumed (1 * no_samples / 8) net "No_change" kmp +
        cls_consumed (3 * no_samples / 8) net "No_change" floads → s₁ k = s₂ k :=
      fun k hk => hs k (by rw [if_neg hsv1, if_pos hsv2]; exact hk)
    have h0 : EqTo (cs_consumed (no_samples / 2) net dist kmp +
        cls_consumed (no_samples / 2) net dist floads +
        cs_consumed (1 * no_samples / 8) net "No_change" kmp +
        cls_consumed (3 * no_samples / 8) net "No_change" floads) ⟨s₁, 0⟩ ⟨s₂, 0⟩ :=
      ⟨rfl, hs'⟩
    simp only [if_neg hsv1, if_pos hsv2]
    rcases create_samples_eqto h0 (no_samples / 2) net dist kmp (by omega) with
      ⟨e, e1, e2⟩ | ⟨ps1, u₁, u₂, o1, o2, h1, q1⟩
    · simp only [e1, e2]
    rcases create_load_samples_eqto h1 (no_samples / 2) net dist floads (by omega) with
      ⟨e, e1b, e2b⟩ | ⟨ps2, v₁, v₂, o1b, o2b, h2, q2⟩
    · simp only [o1, o2, e1b, e2b]
    rcases create_samples_eqto h2 (1 * no_samples / 8) net "No_change" kmp (by omega) with
      ⟨e, e1c, e2c⟩ | ⟨ps3, w₁, w₂, o1c, o2c, h3, q3⟩
    · simp only [o1, o2, o1b, o2b, e1c, e2c]
    rcases create_load_samples_eqto h3 (3 * no_samples / 8) net "No_change" floads
        (by omega) with ⟨e, e1d, e2d⟩ | ⟨ps4, z₁, z₂, o1d, o2d, h4, q4⟩
    · simp only [o1, o2, o1b, o2b, o1c, o2c, e1d, e2d]
    · simp only [o1, o2, o1b, o2b, o1c, o2c, o1d, o2d]
  by_cases hsv3 : services = "Load only"
  · have hs' : ∀ k, k < cs_consumed no_samples net "No_change" kmp +
        cls_consumed no_samples net dist floads → s₁ k = s₂ k :=
      fun k hk => hs k (by rw [if_neg hsv1, if_neg hsv2, if_pos hsv3]; exact hk)
    have h0 : EqTo (cs_consumed no_samples net "No_change" kmp +
        cls_consumed no_samples net dist floads) ⟨s₁, 0⟩ ⟨s₂, 0⟩ := ⟨rfl, hs'⟩
    simp only [if_neg hsv1, if_neg hsv2, if_pos hsv3]
    rcases create_samples_eqto h0 no_samples net "No_change" kmp (by omega) with
      ⟨e, e1, e2⟩ | ⟨ps1, u₁, u₂, o1, o2, h1, q1⟩
    · simp only [e1, e2]
    rcases create_load_samples_eqto h1 no_samples net dist floads (by omega) with
      ⟨e, e1b, e2b⟩ | ⟨ps2, v₁, v₂, o1b, o2b, h2, q2⟩
    · simp only [o1, o2, e1b, e2b]
    · simp only [o1, o2, o1b, o2b]
  · simp only [if_neg hsv1, if_neg hsv2, if_neg hsv3]

/-- C8 witness: a concrete application of the determinism theorem, with two
streams that agree on the consumed prefix. -/
theorem C8_witness :
    profile_creation (fun _ => 0) 8 ⟨[⟨1, 1, 0⟩], [⟨1, 1, 1⟩]⟩ "Normal" true "All" [] =
      profile_creation (fun _ => 0) 8 ⟨[⟨1, 1, 0⟩], [⟨1, 1, 1⟩]⟩ "Normal" true "All" [] :=
  C8_determinism 8 ⟨[⟨1, 1, 0⟩], [⟨1, 1, 1⟩]⟩ "Normal" true "All" [] (fun _ => 0)
    (fun _ => 0) (fun _ _ => rfl)

end FlexMC
